import Mathlib

/-
Verification of the news-proxy caching layer of digital-hub-backend.

The repository ships two variants of the news routes:
  - the serverless variant (src/routes/newsRoutes.js), whose cache is a plain
    JS Map with hand-rolled TTL and size limiting (getFromCache / setToCache /
    clearExpiredCache);
  - the always-on variant (src/unnamed/part_000, routes/newsRoutes.js), whose
    cache is a NodeCache instance and whose keys are built by raw template
    interpolation.

A JS Map preserves insertion order and Map.set on an existing key keeps the
key's original position, so the serverless cache is embedded as an association
list in insertion order.  Suffix V marks definitions from the serverless
(Vercel) variant, suffix A definitions from the always-on variant.
-/

set_option maxRecDepth 100000

namespace NewsProxy

/-- Association list with string keys, in insertion order; entries of a JS Map. -/
abbrev AList (α : Type) : Type := List (String × α)

/-- Map.get: first (and with unique keys, only) binding of the key. -/
def alGet {α : Type} (c : AList α) (k : String) : Option α :=
  match c with
  | [] => none
  | kv :: rest => if kv.1 = k then some kv.2 else alGet rest k

/-- Map.set: overwrite in place when the key exists (JS Maps keep the original
position of an overwritten key), append at the end otherwise. -/
def alSet {α : Type} (c : AList α) (k : String) (v : α) : AList α :=
  match c with
  | [] => [(k, v)]
  | kv :: rest => if kv.1 = k then (k, v) :: rest else kv :: alSet rest k v

/-- Map.delete: remove the binding of the key. -/
def alDelete {α : Type} (c : AList α) (k : String) : AList α :=
  match c with
  | [] => []
  | kv :: rest => if kv.1 = k then rest else kv :: alDelete rest k

/-- Keys in insertion order. -/
def keysOf {α : Type} (c : AList α) : List String := c.map Prod.fst

/-- Well-formedness of a JS Map embedding: every key occurs once. -/
def keysUnique {α : Type} (c : AList α) : Prop := (keysOf c).Nodup

instance decKeysUnique {α : Type} (c : AList α) : Decidable (keysUnique c) :=
  inferInstanceAs (Decidable ((keysOf c).Nodup))

/-- Cache entry of the serverless variant: newsCache.set(key, { data, expiry }). -/
structure CacheItem (α : Type) where
  data : α
  expiry : Nat
deriving DecidableEq, Repr

/-- The serverless cache: let newsCache = new Map(). -/
abbrev Cache (α : Type) : Type := AList (CacheItem α)

/-- CACHE_TTL = 5 * 60 * 1000 (5 minutes in milliseconds). -/
def CACHE_TTL : Nat := 5 * 60 * 1000

/-- getFromCache(key) of the serverless variant: miss on absent key; if
Date.now() > item.expiry the entry is deleted and the call misses; otherwise
item.data is returned with no mutation.  Date.now() is the explicit `now`. -/
def getFromCache {α : Type} (c : Cache α) (key : String) (now : Nat) :
    Option α × Cache α :=
  match alGet c key with
  | none => (none, c)
  | some item =>
    if now > item.expiry then (none, alDelete c key)
    else (some item.data, c)

/-- setToCache(key, data, ttl = CACHE_TTL) of the serverless variant: when
newsCache.size > 50 the first inserted key is deleted, then the entry
{ data, expiry: Date.now() + ttl } is stored. -/
def setToCache {α : Type} (c : Cache α) (key : String) (data : α)
    (ttl now : Nat) : Cache α :=
  let pruned :=
    if c.length > 50 then
      match c with
      | [] => c
      | (firstKey, _) :: _ => alDelete c firstKey
    else c
  alSet pruned key { data := data, expiry := now + ttl }

/-- clearExpiredCache() of the serverless variant: delete every entry with
now > item.expiry. -/
def clearExpiredCache {α : Type} (c : Cache α) (now : Nat) : Cache α :=
  match c with
  | [] => []
  | kv :: rest =>
    if now > kv.2.expiry then clearExpiredCache rest now
    else kv :: clearExpiredCache rest now

/-- The operations the route handlers perform on the serverless cache. -/
inductive CacheOp (α : Type) where
  | set (key : String) (data : α) (ttl : Nat)
  | get (key : String)
  | sweep
  | clear

/-- Effect of one cache operation on the store, at JS time `now`. -/
def applyOp {α : Type} (c : Cache α) (now : Nat) : CacheOp α → Cache α
  | CacheOp.set k v ttl => setToCache c k v ttl now
  | CacheOp.get k => (getFromCache c k now).2
  | CacheOp.sweep => clearExpiredCache c now
  | CacheOp.clear => []

/-- Effect of a timed sequence of cache operations. -/
def applyTrace {α : Type} (c : Cache α) : List (Nat × CacheOp α) → Cache α
  | [] => c
  | (t, op) :: rest => applyTrace (applyOp c t op) rest

example : (getFromCache (setToCache ([] : Cache Nat) "k" 7 1000 0) "k" 500).1 = some 7 := by
  decide

example : (getFromCache (setToCache ([] : Cache Nat) "k" 7 1000 0) "k" 1001).1 = none := by
  decide

/-! JS primitive semantics used by the route handlers: parseInt, Math.min and
Math.max over possibly-NaN numbers, template interpolation of numbers,
String.prototype.trim and encodeURIComponent. -/

/-- A JS number as produced by parseInt and propagated through Math.min and
Math.max: either NaN or an integer. -/
inductive JSNum where
  | nan : JSNum
  | int : Int → JSNum
deriving DecidableEq, Repr

/-- JS whitespace recognised by String.prototype.trim and by parseInt:
space and the control characters tab through carriage return. -/
def isSpaceJS (c : Char) : Bool :=
  c.toNat == 32 || (9 ≤ c.toNat && c.toNat ≤ 13)

/-- A decimal digit character. -/
def isDigitJS (c : Char) : Bool :=
  48 ≤ c.toNat && c.toNat ≤ 57

/-- A hexadecimal digit character (0-9, A-F, a-f). -/
def isHexDigitJS (c : Char) : Bool :=
  (48 ≤ c.toNat && c.toNat ≤ 57) || (65 ≤ c.toNat && c.toNat ≤ 70) ||
  (97 ≤ c.toNat && c.toNat ≤ 102)

/-- Value of a hexadecimal digit character. -/
def hexVal (c : Char) : Nat :=
  if c.toNat ≤ 57 then c.toNat - 48
  else if c.toNat ≤ 70 then c.toNat - 55
  else c.toNat - 87

/-- JS parseInt with no radix argument: skip leading whitespace, accept one
optional sign, then read in radix 16 when the rest starts with the prefix 0x
or 0X (the prefix is dropped) and in radix 10 otherwise; the longest leading
run of digits of that radix is the value, and NaN results when the run is
empty. -/
def parseIntJS (s : String) : JSNum :=
  let cs := s.data.dropWhile isSpaceJS
  let signed : Int × List Char :=
    match cs with
    | c :: rest =>
      if c.toNat == 45 then (-1, rest)
      else if c.toNat == 43 then (1, rest)
      else (1, cs)
    | [] => (1, [])
  let hex : Bool :=
    match signed.2 with
    | c0 :: c1 :: _ => c0.toNat == 48 && (c1.toNat == 120 || c1.toNat == 88)
    | _ => false
  if hex then
    let ds := (signed.2.drop 2).takeWhile isHexDigitJS
    if ds.isEmpty then JSNum.nan
    else JSNum.int (signed.1 * Int.ofNat (ds.foldl (fun a c => a * 16 + hexVal c) 0))
  else
    let ds := signed.2.takeWhile isDigitJS
    if ds.isEmpty then JSNum.nan
    else JSNum.int (signed.1 * Int.ofNat (ds.foldl (fun a c => a * 10 + (c.toNat - 48)) 0))

/-- Math.min on two JS numbers: NaN propagates. -/
def jsMin : JSNum → JSNum → JSNum
  | JSNum.nan, _ => JSNum.nan
  | _, JSNum.nan => JSNum.nan
  | JSNum.int a, JSNum.int b => JSNum.int (min a b)

/-- Math.max on two JS numbers: NaN propagates. -/
def jsMax : JSNum → JSNum → JSNum
  | JSNum.nan, _ => JSNum.nan
  | _, JSNum.nan => JSNum.nan
  | JSNum.int a, JSNum.int b => JSNum.int (max a b)

/-- Template-literal interpolation of a JS number: NaN prints as "NaN",
integers print in the usual decimal form. -/
def jsNumToString : JSNum → String
  | JSNum.nan => "NaN"
  | JSNum.int n => toString n

/-- String.prototype.trim: strip JS whitespace from both ends. -/
def trimJS (s : String) : String :=
  String.mk (((s.data.dropWhile isSpaceJS).reverse.dropWhile isSpaceJS).reverse)

/-- Characters left unescaped by encodeURIComponent:
A-Z, a-z, 0-9 and - _ . ! ~ * ( ) and the apostrophe (code 39). -/
def isUnreservedURI (c : Char) : Bool :=
  let n := c.toNat
  (48 ≤ n && n ≤ 57) || (65 ≤ n && n ≤ 90) || (97 ≤ n && n ≤ 122) ||
  n == 45 || n == 95 || n == 46 || n == 33 || n == 126 || n == 42 ||
  n == 39 || n == 40 || n == 41

/-- Upper-case hexadecimal digit of a value below 16. -/
def hexDigit (n : Nat) : Char :=
  if n < 10 then Char.ofNat (48 + n) else Char.ofNat (55 + n)

/-- UTF-8 bytes of a character, for percent-encoding. -/
def utf8Bytes (c : Char) : List Nat :=
  let n := c.toNat
  if n < 128 then [n]
  else if n < 2048 then [192 + n / 64, 128 + n % 64]
  else if n < 65536 then [224 + n / 4096, 128 + (n / 64) % 64, 128 + n % 64]
  else [240 + n / 262144, 128 + (n / 4096) % 64, 128 + (n / 64) % 64, 128 + n % 64]

/-- Percent-encoding of one byte: a percent sign and two upper-case hex digits. -/
def percentByte (b : Nat) : String :=
  String.mk [Char.ofNat 37, hexDigit (b / 16), hexDigit (b % 16)]

/-- encodeURIComponent: unreserved characters pass through, every other
character is replaced by the percent-encoding of its UTF-8 bytes. -/
def encodeURIComponent (s : String) : String :=
  s.data.foldl
    (fun acc c =>
      if isUnreservedURI c then acc.push c
      else acc ++ String.join ((utf8Bytes c).map percentByte))
    ""

example : parseIntJS "05" = JSNum.int 5 := by decide
example : parseIntJS "abc" = JSNum.nan := by decide
example : parseIntJS "0x10" = JSNum.int 16 := by decide
example : parseIntJS "0x" = JSNum.nan := by decide
example : parseIntJS "-0x10" = JSNum.int (-16) := by decide
example : jsMax (JSNum.int 1) (jsMin JSNum.nan (JSNum.int 5)) = JSNum.nan := by decide
example : trimJS "  a b  " = "a b" := by decide
example : encodeURIComponent "a b" = "a%20b" := by decide

/-! Cache-key construction.  Suffix V: serverless variant, suffix A: always-on
variant. -/

/-- Serverless headlines clamp: Math.min(parseInt(pageSize), 50). -/
def limitedPageSizeV (pageSize : String) : JSNum :=
  jsMin (parseIntJS pageSize) (JSNum.int 50)

/-- Serverless headlines clamp: Math.max(1, Math.min(parseInt(page), 5)). -/
def limitedPageV (page : String) : JSNum :=
  jsMax (JSNum.int 1) (jsMin (parseIntJS page) (JSNum.int 5))

/-- Serverless search clamp: Math.max(1, Math.min(parseInt(page), 3)). -/
def limitedPageSearchV (page : String) : JSNum :=
  jsMax (JSNum.int 1) (jsMin (parseIntJS page) (JSNum.int 3))

/-- Serverless headlines cache key:
headlines_[category]_[country]_[limitedPage]_[limitedPageSize]. -/
def headlinesCacheKeyV (category country page pageSize : String) : String :=
  "headlines_" ++ category ++ "_" ++ country ++ "_" ++
    jsNumToString (limitedPageV page) ++ "_" ++
    jsNumToString (limitedPageSizeV pageSize)

/-- Serverless sanitized query: q.trim().substring(0, 100). -/
def sanitizedQueryV (q : String) : String :=
  (trimJS q).take 100

/-- Serverless search cache key:
search_[encodeURIComponent(sanitizedQuery)]_[limitedPage]_[limitedPageSize]_[sortBy]_[language]. -/
def searchCacheKeyV (q page pageSize sortBy language : String) : String :=
  "search_" ++ encodeURIComponent (sanitizedQueryV q) ++ "_" ++
    jsNumToString (limitedPageSearchV page) ++ "_" ++
    jsNumToString (limitedPageSizeV pageSize) ++ "_" ++
    sortBy ++ "_" ++ language

/-- Always-on headlines cache key: raw query parameters interpolated,
headlines_[category]_[country]_[page]_[pageSize]. -/
def headlinesCacheKeyA (category country page pageSize : String) : String :=
  "headlines_" ++ category ++ "_" ++ country ++ "_" ++ page ++ "_" ++ pageSize

/-- Always-on search cache key: q is percent-encoded but not trimmed, page and
pageSize are the raw strings. -/
def searchCacheKeyA (q page pageSize sortBy language : String) : String :=
  "search_" ++ encodeURIComponent q ++ "_" ++ page ++ "_" ++ pageSize ++ "_" ++
    sortBy ++ "_" ++ language

/-! Article filtering and response shaping. -/

/-- Shape of an upstream article as inspected by the filters.  Fields are
Options: none models a missing (undefined or null) JSON field. -/
structure Article where
  title : Option String
  description : Option String
  urlToImage : Option String
  url : Option String
deriving DecidableEq, Repr

/-- JS truthiness of an optional string field: a missing field and the empty
string are falsy, every other string is truthy. -/
def truthyStr : Option String → Bool
  | none => false
  | some s => !(s == "")

/-- Serverless article predicate: article.title && article.title !==
[Removed] && article.description && article.urlToImage && article.url. -/
def validArticleV (a : Article) : Bool :=
  truthyStr a.title && !(a.title == some "[Removed]") &&
    truthyStr a.description && truthyStr a.urlToImage && truthyStr a.url

/-- Always-on article predicate: same as the serverless one but with no
article.url conjunct. -/
def validArticleA (a : Article) : Bool :=
  truthyStr a.title && !(a.title == some "[Removed]") &&
    truthyStr a.description && truthyStr a.urlToImage

/-- Serverless validArticles = response.data.articles.filter(...). -/
def validArticlesV (l : List Article) : List Article :=
  l.filter validArticleV

/-- Always-on validArticles = response.data.articles.filter(...). -/
def validArticlesA (l : List Article) : List Article :=
  l.filter validArticleA

/-- Upstream response body (response.data): status flag, article list and the
upstream's raw totalResults. -/
structure UpstreamBody where
  status : String
  articles : List Article
  totalResults : Nat
deriving DecidableEq, Repr

/-- Serverless headlines responseData: spread of the body with articles
replaced by the filtered list and totalResults by its length. -/
def headlinesResponseDataV (r : UpstreamBody) : UpstreamBody :=
  { r with
    articles := validArticlesV r.articles
    totalResults := (validArticlesV r.articles).length }

/-- Always-on headlines responseData. -/
def headlinesResponseDataA (r : UpstreamBody) : UpstreamBody :=
  { r with
    articles := validArticlesA r.articles
    totalResults := (validArticlesA r.articles).length }

/-- Serverless search responseData: totalResults is
Math.min(response.data.totalResults, validArticles.length). -/
def searchResponseDataV (r : UpstreamBody) : UpstreamBody :=
  { r with
    articles := validArticlesV r.articles
    totalResults := min r.totalResults (validArticlesV r.articles).length }

/-- Always-on search responseData. -/
def searchResponseDataA (r : UpstreamBody) : UpstreamBody :=
  { r with
    articles := validArticlesA r.articles
    totalResults := min r.totalResults (validArticlesA r.articles).length }

/-! Error classification of a failed upstream fetch. -/

/-- Error thrown out of the axios call: a timeout carries error.code ===
ECONNABORTED and no response; an HTTP error carries error.response.status;
anything else (including a thrown non-ok body) has neither. -/
inductive FetchError where
  | timeout
  | httpStatus (code : Nat)
  | other
deriving DecidableEq, Repr

/-- Whether error.code === ECONNABORTED. -/
def errorIsTimeout : FetchError → Bool
  | FetchError.timeout => true
  | _ => false

/-- error.response?.status: present only for HTTP errors. -/
def errorResponseStatus : FetchError → Option Nat
  | FetchError.httpStatus code => some code
  | _ => none

/-- HTTP reply of an error path: status code and the retryAfter hint of the
JSON body, when one is present. -/
structure ErrorReply where
  status : Nat
  retryAfter : Option String
deriving DecidableEq, Repr

/-- Serverless headlines catch block: ECONNABORTED yields 408 with retryAfter
30 seconds; upstream 429 yields 429 with retryAfter 1 hour; upstream 401 and
everything else yield 500 with no retry hint. -/
def headlinesErrorReplyV (e : FetchError) : ErrorReply :=
  if errorIsTimeout e then { status := 408, retryAfter := some "30 seconds" }
  else if errorResponseStatus e == some 429 then
    { status := 429, retryAfter := some "1 hour" }
  else if errorResponseStatus e == some 401 then
    { status := 500, retryAfter := none }
  else { status := 500, retryAfter := none }

/-- Always-on headlines catch block: no ECONNABORTED branch exists; upstream
429 yields 429 with retryAfter 1 hour; upstream 401 and everything else
(timeouts included) yield 500 with no retry hint. -/
def headlinesErrorReplyA (e : FetchError) : ErrorReply :=
  if errorResponseStatus e == some 429 then
    { status := 429, retryAfter := some "1 hour" }
  else if errorResponseStatus e == some 401 then
    { status := 500, retryAfter := none }
  else { status := 500, retryAfter := none }

/-- Serverless headlines handler after a cache miss, given the outcome of the
axios call: on a body with status ok, filter, recompute the total, write the
cache and reply 200; on a non-ok body, throw into the catch block (500); on a
fetch error, reply per the catch block.  Returns (HTTP status, retryAfter
hint, cache after the request). -/
def headlinesCompleteV (c : Cache UpstreamBody) (key : String) (now : Nat)
    (result : Except FetchError UpstreamBody) :
    Nat × Option String × Cache UpstreamBody :=
  match result with
  | Except.ok body =>
    if body.status == "ok" then
      (200, none, setToCache c key (headlinesResponseDataV body) CACHE_TTL now)
    else (500, none, c)
  | Except.error e =>
    ((headlinesErrorReplyV e).status, (headlinesErrorReplyV e).retryAfter, c)

/-- Always-on headlines handler after a cache miss; the NodeCache store is
embedded as an association list written only by newsCache.set. -/
def headlinesCompleteA (c : AList UpstreamBody) (key : String)
    (result : Except FetchError UpstreamBody) :
    Nat × Option String × AList UpstreamBody :=
  match result with
  | Except.ok body =>
    if body.status == "ok" then
      (200, none, alSet c key (headlinesResponseDataA body))
    else (500, none, c)
  | Except.error e =>
    ((headlinesErrorReplyA e).status, (headlinesErrorReplyA e).retryAfter, c)

/-! Request validation of the serverless headlines route. -/

/-- The fixed category list of the headlines route. -/
def validCategories : List String :=
  ["business", "entertainment", "general", "health", "science", "sports",
   "technology"]

/-- Outcome of the serverless headlines validation and parameter clamping:
either a 400 rejection or the derived cache key together with the page and
pageSize values forwarded to the upstream request. -/
inductive HeadlinesStep where
  | badRequest (message : String)
  | proceed (cacheKey : String) (page pageSize : JSNum)
deriving DecidableEq, Repr

/-- Serverless headlines route up to the upstream call: only the category is
validated (400 on an invalid one); page and pageSize go through parseInt and
the Math.min / Math.max clamps, and the results feed both the cache key and
the upstream params. -/
def headlinesPrepareV (category country page pageSize : String) : HeadlinesStep :=
  if validCategories.contains category then
    HeadlinesStep.proceed (headlinesCacheKeyV category country page pageSize)
      (limitedPageV page) (limitedPageSizeV pageSize)
  else HeadlinesStep.badRequest "Invalid category"

/-! The request governor (express-rate-limit as configured by newsRateLimit). -/

/-- Options passed to rateLimit(...) in the serverless variant; skip receives
the ambient NODE_ENV value (the request argument is unused by the source). -/
structure RateLimitOptions where
  windowMs : Nat
  max : Nat
  skip : Option String → Bool

/-- newsRateLimit of the serverless variant: 15-minute window, 200 requests,
and skip true exactly when process.env.NODE_ENV === development. -/
def newsRateLimit : RateLimitOptions :=
  { windowMs := 15 * 60 * 1000
    max := 200
    skip := fun env => env == some "development" }

/-- Per-client window state of the limiter. -/
structure RateWindow where
  windowStart : Nat
  count : Nat
deriving DecidableEq, Repr

/-- Modelled from the spec: the admission step of the express-rate-limit
library (not part of this repository), per section 4.4 of the specification —
a windowed counter per client identity, consulted on every request; when the
configured skip predicate holds the request is passed through without touching
any window state. -/
def admitClient (opts : RateLimitOptions) (env : Option String) (now : Nat)
    (store : String → RateWindow) (cid : String) :
    Bool × (String → RateWindow) :=
  if opts.skip env then (true, store)
  else
    let w0 := store cid
    let w1 : RateWindow :=
      if w0.windowStart + opts.windowMs ≤ now then
        { windowStart := now, count := 0 }
      else w0
    if w1.count < opts.max then
      (true, fun c =>
        if c = cid then { windowStart := w1.windowStart, count := w1.count + 1 }
        else store c)
    else
      (false, fun c => if c = cid then w1 else store c)

/-! Lemmas about the association-list embedding of the JS Map. -/

theorem alGet_alSet_self {α : Type} (c : AList α) (k : String) (v : α) :
    alGet (alSet c k v) k = some v := by
  induction c with
  | nil => simp [alSet, alGet]
  | cons kv rest ih =>
    by_cases h2 : kv.1 = k
    · simp [alSet, alGet, h2]
    · simp [alSet, alGet, h2, ih]

theorem alGet_alSet_ne {α : Type} (c : AList α) (k k' : String) (v : α)
    (h : k' ≠ k) : alGet (alSet c k v) k' = alGet c k' := by
  induction c with
  | nil => simp [alSet, alGet, Ne.symm h]
  | cons kv rest ih =>
    by_cases h2 : kv.1 = k
    · simp [alSet, alGet, h2, Ne.symm h]
    · simp [alSet, alGet, h2, ih]

theorem alGet_alDelete_ne {α : Type} (c : AList α) (k k' : String)
    (h : k ≠ k') : alGet (alDelete c k') k = alGet c k := by
  induction c with
  | nil => simp [alDelete]
  | cons kv rest ih =>
    by_cases h2 : kv.1 = k'
    · simp [alDelete, alGet, h2, Ne.symm h]
    · simp [alDelete, alGet, h2, ih]

theorem keysUnique_cons {α : Type} (kv : String × α) (rest : AList α) :
    keysUnique (kv :: rest) ↔ kv.1 ∉ keysOf rest ∧ keysUnique rest := by
  simp [keysUnique, keysOf]

theorem alGet_eq_none_of_not_mem {α : Type} (c : AList α) (k : String)
    (h : k ∉ keysOf c) : alGet c k = none := by
  induction c with
  | nil => simp [alGet]
  | cons kv rest ih =>
    simp only [keysOf, List.map_cons, List.mem_cons] at h
    push_neg at h
    have h1 : kv.1 ≠ k := fun hh => h.1 hh.symm
    simp [alGet, h1, ih (by simpa [keysOf] using h.2)]

theorem alGet_alDelete_self {α : Type} (c : AList α) (k : String)
    (hu : keysUnique c) : alGet (alDelete c k) k = none := by
  induction c with
  | nil => simp [alDelete, alGet]
  | cons kv rest ih =>
    rw [keysUnique_cons] at hu
    by_cases h2 : kv.1 = k
    · simpa [alDelete, h2] using alGet_eq_none_of_not_mem rest k (h2 ▸ hu.1)
    · simp [alDelete, alGet, h2, ih hu.2]

theorem keysOf_alSet_of_isSome {α : Type} (c : AList α) (k : String) (v : α)
    (h : (alGet c k).isSome) : keysOf (alSet c k v) = keysOf c := by
  induction c with
  | nil => simp [alGet] at h
  | cons kv rest ih =>
    by_cases h2 : kv.1 = k
    · simp [alSet, keysOf, h2]
    · simp only [alGet, h2, if_false] at h
      have hrec : keysOf (alSet rest k v) = keysOf rest := ih h
      simp only [alSet, h2, if_false, keysOf, List.map_cons]
      rw [show List.map Prod.fst (alSet rest k v) = keysOf rest from hrec]
      rfl

theorem mem_keysOf_clearExpiredCache {α : Type} (c : Cache α) (now : Nat)
    (k : String) (h : k ∈ keysOf (clearExpiredCache c now)) : k ∈ keysOf c := by
  induction c with
  | nil => simpa [clearExpiredCache] using h
  | cons kv rest ih =>
    by_cases h2 : now > kv.2.expiry
    · simp only [clearExpiredCache, if_pos h2] at h
      simp only [keysOf, List.map_cons, List.mem_cons]
      exact Or.inr (ih h)
    · simp only [clearExpiredCache, if_neg h2, keysOf, List.map_cons,
        List.mem_cons] at h
      simp only [keysOf, List.map_cons, List.mem_cons]
      rcases h with h3 | h3
      · exact Or.inl h3
      · exact Or.inr (ih h3)

theorem alGet_clearExpiredCache_of_fresh {α : Type} (c : Cache α) (k : String)
    (it : CacheItem α) (now : Nat) (hget : alGet c k = some it)
    (hfresh : ¬ now > it.expiry) :
    alGet (clearExpiredCache c now) k = some it := by
  induction c with
  | nil => simp [alGet] at hget
  | cons kv rest ih =>
    by_cases h2 : kv.1 = k
    · have hkv : kv.2 = it := by simpa [alGet, h2] using hget
      simp [clearExpiredCache, hkv, hfresh, alGet, h2]
    · simp only [alGet, h2, if_false] at hget
      by_cases h3 : now > kv.2.expiry
      · simp [clearExpiredCache, h3, ih hget]
      · simp [clearExpiredCache, h3, alGet, h2, ih hget]

theorem alGet_clearExpiredCache {α : Type} (c : Cache α) (now : Nat)
    (k : String) (hu : keysUnique c) :
    alGet (clearExpiredCache c now) k =
      (alGet c k).bind (fun it => if now > it.expiry then none else some it) := by
  induction c with
  | nil => simp [clearExpiredCache, alGet]
  | cons kv rest ih =>
    rw [keysUnique_cons] at hu
    by_cases h2 : kv.1 = k
    · by_cases h3 : now > kv.2.expiry
      · have : alGet (clearExpiredCache rest now) k = none := by
          apply alGet_eq_none_of_not_mem
          intro hmem
          exact hu.1 (h2 ▸ mem_keysOf_clearExpiredCache rest now k hmem)
        simp [clearExpiredCache, h3, alGet, h2, this]
      · simp [clearExpiredCache, h3, alGet, h2]
    · by_cases h3 : now > kv.2.expiry
      · simp [clearExpiredCache, h3, alGet, h2, ih hu.2]
      · simp [clearExpiredCache, h3, alGet, h2, ih hu.2]

theorem length_alSet_le {α : Type} (c : AList α) (k : String) (v : α) :
    (alSet c k v).length ≤ c.length + 1 := by
  induction c with
  | nil => simp [alSet]
  | cons kv rest ih =>
    by_cases h2 : kv.1 = k
    · simp [alSet, h2]
    · simpa [alSet, h2] using Nat.succ_le_succ ih

theorem length_alDelete_le {α : Type} (c : AList α) (k : String) :
    (alDelete c k).length ≤ c.length := by
  induction c with
  | nil => simp [alDelete]
  | cons kv rest ih =>
    by_cases h2 : kv.1 = k
    · simp [alDelete, h2, Nat.le_succ]
    · simpa [alDelete, h2] using Nat.succ_le_succ ih

theorem length_clearExpiredCache_le {α : Type} (c : Cache α) (now : Nat) :
    (clearExpiredCache c now).length ≤ c.length := by
  induction c with
  | nil => simp [clearExpiredCache]
  | cons kv rest ih =>
    by_cases h2 : now > kv.2.expiry
    · simp only [clearExpiredCache, if_pos h2, List.length_cons]
      exact Nat.le_succ_of_le ih
    · simpa [clearExpiredCache, h2] using Nat.succ_le_succ ih

/-! Lemmas about setToCache, getFromCache and operation traces. -/

theorem setToCache_of_small {α : Type} (c : Cache α) (key : String) (data : α)
    (ttl now : Nat) (h : ¬ c.length > 50) :
    setToCache c key data ttl now = alSet c key { data := data, expiry := now + ttl } := by
  simp [setToCache, h]

theorem setToCache_of_large {α : Type} (k0 : String) (v0 : CacheItem α)
    (rest : Cache α) (key : String) (data : α) (ttl now : Nat)
    (h : ((k0, v0) :: rest : Cache α).length > 50) :
    setToCache ((k0, v0) :: rest) key data ttl now =
      alSet rest key { data := data, expiry := now + ttl } := by
  have h1 : 50 < rest.length + 1 := by simpa using h
  simp [setToCache, h1, alDelete]

theorem length_setToCache_le {α : Type} (c : Cache α) (key : String) (data : α)
    (ttl now : Nat) (h : c.length ≤ 51) :
    (setToCache c key data ttl now).length ≤ 51 := by
  by_cases hlen : c.length > 50
  · cases c with
    | nil => simp at hlen
    | cons kv rest =>
      obtain ⟨k0, v0⟩ := kv
      rw [setToCache_of_large k0 v0 rest key data ttl now hlen]
      have h1 : rest.length ≤ 50 := by
        simpa using Nat.le_of_succ_le_succ (by simpa using h)
      exact le_trans (length_alSet_le rest key _) (by omega)
  · rw [setToCache_of_small c key data ttl now hlen]
    have h1 : c.length ≤ 50 := by omega
    exact le_trans (length_alSet_le c key _) (by omega)

theorem length_applyOp_le {α : Type} (c : Cache α) (t : Nat) (op : CacheOp α)
    (h : c.length ≤ 51) : (applyOp c t op).length ≤ 51 := by
  cases op with
  | set k v ttl => exact length_setToCache_le c k v ttl t h
  | get k =>
    simp only [applyOp, getFromCache]
    cases hget : alGet c k with
    | none => simpa using h
    | some item =>
      by_cases h2 : t > item.expiry
      · simp only [h2, if_true]
        exact le_trans (length_alDelete_le c k) h
      · simpa [h2] using h
  | sweep => exact le_trans (length_clearExpiredCache_le c t) h
  | clear => simp [applyOp]

theorem length_applyTrace_le {α : Type} (tr : List (Nat × CacheOp α)) :
    ∀ c : Cache α, c.length ≤ 51 → (applyTrace c tr).length ≤ 51 := by
  induction tr with
  | nil => intro c h; simpa [applyTrace] using h
  | cons p rest ih =>
    intro c h
    exact ih (applyOp c p.1 p.2) (length_applyOp_le c p.1 p.2 h)

/-- The cache operations that the round-trip claim allows between a set and
the matching get once sets to other keys are excluded: lookups and sweeps. -/
def CacheOp.nonWriting {α : Type} : CacheOp α → Bool
  | CacheOp.get _ => true
  | CacheOp.sweep => true
  | _ => false

theorem alGet_applyOp_of_nonWriting {α : Type} (c : Cache α) (k : String)
    (it : CacheItem α) (t : Nat) (op : CacheOp α)
    (hop : op.nonWriting = true) (hget : alGet c k = some it)
    (ht : t ≤ it.expiry) : alGet (applyOp c t op) k = some it := by
  cases op with
  | set k' v ttl => simp [CacheOp.nonWriting] at hop
  | clear => simp [CacheOp.nonWriting] at hop
  | sweep =>
    exact alGet_clearExpiredCache_of_fresh c k it t hget (by omega)
  | get k' =>
    simp only [applyOp, getFromCache]
    by_cases hk : k' = k
    · subst hk
      rw [hget]
      have h2 : ¬ t > it.expiry := by omega
      simp [h2, hget]
    · cases hget' : alGet c k' with
      | none => simpa using hget
      | some it' =>
        by_cases h2 : t > it'.expiry
        · simpa [h2] using (alGet_alDelete_ne c k k' (Ne.symm hk)).trans hget
        · simpa [h2] using hget

theorem alGet_applyTrace_of_nonWriting {α : Type}
    (tr : List (Nat × CacheOp α)) (now : Nat) :
    ∀ (c : Cache α) (k : String) (it : CacheItem α),
      alGet c k = some it → now ≤ it.expiry →
      (∀ p ∈ tr, p.2.nonWriting = true ∧ p.1 ≤ now) →
      alGet (applyTrace c tr) k = some it := by
  induction tr with
  | nil =>
    intro c k it hget _ _
    simpa [applyTrace] using hget
  | cons p rest ih =>
    intro c k it hget hnow hops
    have hp := hops p (by simp)
    have hstep : alGet (applyOp c p.1 p.2) k = some it :=
      alGet_applyOp_of_nonWriting c k it p.1 p.2 hp.1 hget (le_trans hp.2 hnow)
    exact ih (applyOp c p.1 p.2) k it hstep hnow
      (fun q hq => hops q (List.mem_cons_of_mem p hq))

/-! Claims C1 to C4: the serverless cache store. -/

/-- Trace of n insertions of distinct keys (decimal numerals) at time 0 with
TTL 1000, used to drive the store to its reachable maximum size. -/
def fillTrace (n : Nat) : List (Nat × CacheOp Nat) :=
  (List.range n).map (fun i => (0, CacheOp.set (toString i) 0 1000))

/-- Operations permitted between set(k, v) and get(k) by claim C1 as written:
any set to a different key, any get, any sweep; only set(k, _) and clear are
excluded. -/
def allowedBetweenC1 {α : Type} (k : String) (op : CacheOp α) : Bool :=
  match op with
  | CacheOp.set key _ _ => !(key == k)
  | CacheOp.clear => false
  | _ => true

/-- C1 (amended): after set(k, v, ttl) at time t0, a get(k) at any time
now < t0 + ttl returns exactly v, provided the operations in between are only
lookups and sweeps (no set to any key and no clear) at times up to now.  The
claim as stated, which permits intervening sets to other keys, is refuted by
roundTrip_eviction_cex: FIFO eviction can remove k before it expires. -/
theorem roundTrip_of_no_writes {α : Type} (c : Cache α) (k : String) (v : α)
    (ttl t0 now : Nat) (tr : List (Nat × CacheOp α))
    (hops : ∀ p ∈ tr, p.2.nonWriting = true ∧ p.1 ≤ now)
    (hnow : now < t0 + ttl) :
    (getFromCache (applyTrace (setToCache c k v ttl t0) tr) k now).1 = some v := by
  have hset : alGet (setToCache c k v ttl t0) k =
      some { data := v, expiry := t0 + ttl } := by
    by_cases hlen : c.length > 50
    · cases c with
      | nil => simp at hlen
      | cons kv rest =>
        obtain ⟨k0, v0⟩ := kv
        rw [setToCache_of_large k0 v0 rest k v ttl t0 hlen]
        exact alGet_alSet_self rest k _
    · rw [setToCache_of_small c k v ttl t0 hlen]
      exact alGet_alSet_self c k _
  have htr : alGet (applyTrace (setToCache c k v ttl t0) tr) k =
      some { data := v, expiry := t0 + ttl } :=
    alGet_applyTrace_of_nonWriting tr now _ k _ hset (Nat.le_of_lt hnow) hops
  have h2 : ¬ now > t0 + ttl := by omega
  simp [getFromCache, htr, h2]

/-- Witness for C1: a concrete set, an unrelated lookup and a sweep, then the
get before expiry returns the stored value. -/
theorem roundTrip_of_no_writes_witness :
    (getFromCache (applyTrace (setToCache ([] : Cache Nat) "k" 7 1000 0)
      [(1, CacheOp.get "other"), (2, CacheOp.sweep)]) "k" 3).1 = some 7 :=
  roundTrip_of_no_writes [] "k" 7 1000 0 3
    [(1, CacheOp.get "other"), (2, CacheOp.sweep)] (by decide) (by decide)

/-- Counterexample to C1 as stated: set("k", 7) followed by 51 sets of other
keys (allowed by the claim, which only excludes set(k, _) and clear) makes the
FIFO eviction of setToCache delete "k", and the get at time 0, well before the
entry would expire, misses. -/
theorem roundTrip_eviction_cex :
    (fillTrace 51).all (fun p => allowedBetweenC1 "k" p.2) = true ∧
    (0 : Nat) < 0 + 1000 ∧
    (getFromCache (applyTrace (setToCache ([] : Cache Nat) "k" 7 1000 0)
      (fillTrace 51)) "k" 0).1 = none := by
  decide

/-- C2 (amended): in the serverless variant the store size never exceeds 51,
not 50: setToCache evicts only when size > 50 already holds, so a 51st entry
is admitted (cache_size_reaches_51_cex); every operation sequence from the
empty store stays at or below 51 entries.  The always-on variant configures
NodeCache without any maxKeys bound, so no capacity invariant holds there. -/
theorem cache_size_le_51 {α : Type} (tr : List (Nat × CacheOp α)) :
    (applyTrace ([] : Cache α) tr).length ≤ 51 :=
  length_applyTrace_le tr [] (by simp)

/-- Counterexample to C2 as stated: 51 inserts of distinct keys leave the
store at 51 entries, exceeding the claimed bound of 50. -/
theorem cache_size_reaches_51_cex :
    (applyTrace ([] : Cache Nat) (fillTrace 51)).length = 51 ∧
    ¬ (applyTrace ([] : Cache Nat) (fillTrace 51)).length ≤ 50 := by
  decide

/-- C3 (amended): setToCache evicts exactly the oldest-inserted entry
precisely when the store size exceeds 50 at call time, regardless of whether
the inserted key is new or already present; at size at most 50 (including a
store exactly at the claimed capacity of 50) nothing is evicted, the key maps
to the fresh value and expiry, and overwriting an existing key preserves the
insertion (eviction) order. -/
theorem setToCache_eviction_contract {α : Type} (c : Cache α) (k : String)
    (v : α) (ttl now : Nat) :
    (¬ c.length > 50 →
      (∀ k', k' ≠ k → alGet (setToCache c k v ttl now) k' = alGet c k') ∧
      alGet (setToCache c k v ttl now) k = some { data := v, expiry := now + ttl } ∧
      ((alGet c k).isSome → keysOf (setToCache c k v ttl now) = keysOf c)) ∧
    (∀ k0 v0 rest, c = (k0, v0) :: rest → c.length > 50 → keysUnique c →
      (k ≠ k0 → alGet (setToCache c k v ttl now) k0 = none) ∧
      (∀ k', k' ≠ k → k' ≠ k0 →
        alGet (setToCache c k v ttl now) k' = alGet c k')) := by
  constructor
  · intro hlen
    rw [setToCache_of_small c k v ttl now hlen]
    exact ⟨fun k' hk' => alGet_alSet_ne c k k' _ hk', alGet_alSet_self c k _,
      fun hs => keysOf_alSet_of_isSome c k _ hs⟩
  · intro k0 v0 rest hc hlen hu
    subst hc
    rw [setToCache_of_large k0 v0 rest k v ttl now hlen]
    rw [keysUnique_cons] at hu
    constructor
    · intro hk
      rw [alGet_alSet_ne rest k k0 _ (Ne.symm hk)]
      exact alGet_eq_none_of_not_mem rest k0 hu.1
    · intro k' hk' hk0
      rw [alGet_alSet_ne rest k k' _ hk']
      simp [alGet, Ne.symm hk0]

/-- Witness for C3: below the threshold, setting a new key leaves the other
entry in place. -/
theorem setToCache_eviction_contract_witness :
    alGet (setToCache [("a", ({ data := 1, expiry := 10 } : CacheItem Nat))]
      "b" 2 1000 0) "a" = some { data := 1, expiry := 10 } := by
  have h := (setToCache_eviction_contract
    [("a", ({ data := 1, expiry := 10 } : CacheItem Nat))] "b" 2 1000 0).1
    (by decide)
  rw [h.1 "a" (by decide)]
  decide

/-- Counterexample to C3 as stated: drive the store to its reachable 51-entry
state.  Overwriting the existing key "1" there still evicts the oldest entry
"0" (the claim says an overwrite evicts nothing), and the insertion that took
the store from its claimed capacity of 50 to 51 evicted nothing (the claim
says an insert at capacity evicts the oldest entry first). -/
theorem setToCache_overwrite_evicts_cex :
    (alGet (applyTrace ([] : Cache Nat) (fillTrace 51)) "0").isSome = true ∧
    (alGet (applyTrace ([] : Cache Nat) (fillTrace 51)) "1").isSome = true ∧
    alGet (setToCache (applyTrace ([] : Cache Nat) (fillTrace 51)) "1" 9 1000 0)
      "0" = none ∧
    (applyTrace ([] : Cache Nat) (fillTrace 50)).length = 50 ∧
    alGet (setToCache (applyTrace ([] : Cache Nat) (fillTrace 50)) "x" 9 1000 0)
      "0" = some { data := 0, expiry := 1000 } ∧
    (setToCache (applyTrace ([] : Cache Nat) (fillTrace 50)) "x" 9 1000 0).length
      = 51 := by
  decide

/-- C4 (amended): the expiry comparisons are strict, not inclusive: at the
exact boundary now = expiresAt the entry is still logically present — get
returns the value and mutates nothing, and sweep retains the entry.  Only once
now > expiresAt does get return absent and remove the entry, and sweep removes
exactly the entries with expiresAt < now. -/
theorem expiry_boundary_strict {α : Type} (c : Cache α) (k : String)
    (it : CacheItem α) (now : Nat) (hget : alGet c k = some it)
    (hu : keysUnique c) :
    (now ≤ it.expiry → getFromCache c k now = (some it.data, c)) ∧
    (it.expiry < now →
      (getFromCache c k now).1 = none ∧
      alGet (getFromCache c k now).2 k = none) ∧
    alGet (clearExpiredCache c now) k =
      (if it.expiry < now then none else some it) := by
  refine ⟨?_, ?_, ?_⟩
  · intro h
    have h2 : ¬ now > it.expiry := by omega
    simp [getFromCache, hget, h2]
  · intro h
    refine ⟨by simp [getFromCache, hget, h], ?_⟩
    simp only [getFromCache, hget]
    rw [if_pos h]
    exact alGet_alDelete_self c k hu
  · rw [alGet_clearExpiredCache c now k hu, hget]
    by_cases h : it.expiry < now
    · simp [h]
    · simp [h, show ¬ now > it.expiry from h]

/-- Witness for C4: an entry set at time 0 with TTL 100 is still served at the
exact boundary time 100. -/
theorem expiry_boundary_strict_witness :
    getFromCache (setToCache ([] : Cache Nat) "k" 7 100 0) "k" 100 =
      (some 7, setToCache ([] : Cache Nat) "k" 7 100 0) := by
  have h := (expiry_boundary_strict (setToCache ([] : Cache Nat) "k" 7 100 0)
    "k" { data := 7, expiry := 100 } 100 (by decide) (by decide)).1 (by decide)
  exact h

/-- Counterexample to C4 as stated: at now = expiresAt (entry set at time 0
with TTL 100, queried at time 100) get returns the value instead of absent,
and sweep keeps the entry instead of removing it. -/
theorem expiry_boundary_cex :
    (getFromCache (setToCache ([] : Cache Nat) "k" 7 100 0) "k" 100).1 = some 7 ∧
    alGet (clearExpiredCache (setToCache ([] : Cache Nat) "k" 7 100 0) 100) "k"
      = some { data := 7, expiry := 100 } := by
  decide

/-! Claims C5 to C10: key normalization, filtering, totals, errors, governor
and NaN propagation. -/

/-- Truthiness of an optional string, spelled as a proposition. -/
theorem truthyStr_eq_true_iff (o : Option String) :
    truthyStr o = true ↔ o ≠ none ∧ o ≠ some "" := by
  cases o <;> simp [truthyStr]

/-- C5 (amended): normalization holds in the serverless variant only: there
page and pageSize pass through parseInt (so textual variants with the same
numeric value, such as "5" and "05", produce the same key) and the search
phrase is trimmed before percent-encoding.  The always-on variant interpolates
the raw page and pageSize strings and percent-encodes the untrimmed query, so
textual variants produce distinct keys there (cacheKey_raw_alwayson_cex). -/
theorem cacheKey_normalization_serverless
    (category country p p2 ps ps2 q q2 sb lang : String)
    (hp : parseIntJS p = parseIntJS p2) (hps : parseIntJS ps = parseIntJS ps2)
    (hq : trimJS q = trimJS q2) :
    headlinesCacheKeyV category country p ps =
      headlinesCacheKeyV category country p2 ps2 ∧
    searchCacheKeyV q p ps sb lang = searchCacheKeyV q2 p2 ps2 sb lang := by
  constructor
  · simp [headlinesCacheKeyV, limitedPageV, limitedPageSizeV, hp, hps]
  · simp [searchCacheKeyV, sanitizedQueryV, limitedPageSearchV,
      limitedPageSizeV, hp, hps, hq]

/-- Witness for C5: "5" against "05", "20" against "020" and a query with
surrounding whitespace give identical serverless keys. -/
theorem cacheKey_normalization_serverless_witness :
    headlinesCacheKeyV "general" "us" "5" "20" =
      headlinesCacheKeyV "general" "us" "05" "020" ∧
    searchCacheKeyV " a b " "5" "20" "publishedAt" "en" =
      searchCacheKeyV "a b" "05" "020" "publishedAt" "en" :=
  cacheKey_normalization_serverless "general" "us" "5" "05" "20" "020"
    " a b " "a b" "publishedAt" "en" (by decide) (by decide) (by decide)

/-- Counterexample to C5 as stated: in the always-on variant "5" and "05", and
a query with surrounding whitespace, produce different cache keys. -/
theorem cacheKey_raw_alwayson_cex :
    headlinesCacheKeyA "general" "us" "5" "20" ≠
      headlinesCacheKeyA "general" "us" "05" "20" ∧
    searchCacheKeyA " ab" "1" "20" "publishedAt" "en" ≠
      searchCacheKeyA "ab" "1" "20" "publishedAt" "en" := by
  decide

/-- C6 (amended): an article survives the serverless filter exactly when its
title is present, non-empty and not the sentinel, and description, image URL
and canonical URL are present and non-empty; the always-on filter applies the
same test except that it never inspects the canonical URL, so articles with a
missing url pass it (article_filter_missing_url_cex). -/
theorem article_filter_characterization (a : Article) (l : List Article) :
    (a ∈ validArticlesV l ↔ a ∈ l ∧ validArticleV a = true) ∧
    (a ∈ validArticlesA l ↔ a ∈ l ∧ validArticleA a = true) ∧
    (validArticleV a = true ↔
      (a.title ≠ none ∧ a.title ≠ some "" ∧ a.title ≠ some "[Removed]" ∧
       a.description ≠ none ∧ a.description ≠ some "" ∧
       a.urlToImage ≠ none ∧ a.urlToImage ≠ some "" ∧
       a.url ≠ none ∧ a.url ≠ some "")) ∧
    (validArticleA a = true ↔
      (a.title ≠ none ∧ a.title ≠ some "" ∧ a.title ≠ some "[Removed]" ∧
       a.description ≠ none ∧ a.description ≠ some "" ∧
       a.urlToImage ≠ none ∧ a.urlToImage ≠ some "")) := by
  refine ⟨?_, ?_, ?_, ?_⟩
  · simp [validArticlesV, List.mem_filter]
  · simp [validArticlesA, List.mem_filter]
  · simp only [validArticleV, Bool.and_eq_true, truthyStr_eq_true_iff,
      Bool.not_eq_true', beq_eq_false_iff_ne]
    tauto
  · simp only [validArticleA, Bool.and_eq_true, truthyStr_eq_true_iff,
      Bool.not_eq_true', beq_eq_false_iff_ne]
    tauto

/-- An article that is complete except for its canonical URL. -/
def noUrlArticle : Article :=
  { title := some "t", description := some "d", urlToImage := some "i",
    url := none }

/-- A fully complete article. -/
def goodArticle : Article :=
  { title := some "t", description := some "d", urlToImage := some "i",
    url := some "u" }

/-- Counterexample to C6 as stated: in the always-on variant an article with a
missing canonical URL still appears in the returned result set. -/
theorem article_filter_missing_url_cex :
    noUrlArticle.url = none ∧ validArticlesA [noUrlArticle] = [noUrlArticle] := by
  decide

/-- C7 (amended): both headlines paths report the post-filter count as
totalResults.  The search paths instead report
min(upstream raw totalResults, post-filter count): this equals the number of
articles actually returned whenever the raw total is at least the post-filter
count, but is the raw total otherwise, and can coincide with the raw
pre-filter total even when articles were dropped
(search_total_clamp_cex). -/
theorem totalResults_recomputation (r : UpstreamBody) :
    (headlinesResponseDataV r).totalResults =
      (headlinesResponseDataV r).articles.length ∧
    (headlinesResponseDataA r).totalResults =
      (headlinesResponseDataA r).articles.length ∧
    (searchResponseDataV r).totalResults =
      min r.totalResults (validArticlesV r.articles).length ∧
    (searchResponseDataA r).totalResults =
      min r.totalResults (validArticlesA r.articles).length ∧
    ((validArticlesV r.articles).length ≤ r.totalResults →
      (searchResponseDataV r).totalResults =
        (searchResponseDataV r).articles.length) ∧
    ((validArticlesA r.articles).length ≤ r.totalResults →
      (searchResponseDataA r).totalResults =
        (searchResponseDataA r).articles.length) := by
  refine ⟨rfl, rfl, rfl, rfl, ?_, ?_⟩
  · intro h
    simp [searchResponseDataV, Nat.min_eq_right h]
  · intro h
    simp [searchResponseDataA, Nat.min_eq_right h]

/-- Witness for C7: a search body with one surviving article and a raw total
of 5 reports totalResults 1, the returned count. -/
theorem totalResults_recomputation_witness :
    (searchResponseDataV
      { status := "ok", articles := [goodArticle], totalResults := 5 }).totalResults
      = 1 := by
  have h := (totalResults_recomputation
    { status := "ok", articles := [goodArticle], totalResults := 5 }).2.2.2.2.1
    (by decide)
  exact h.trans (by decide)

/-- Counterexample to C7 as stated: on the search path a body whose raw total
is 0 but which carries one valid article reports totalResults 0 while
returning 1 article; and a body with raw total 1, one valid and one dropped
article, reports exactly the raw pre-filter total. -/
theorem search_total_clamp_cex :
    (searchResponseDataV
      { status := "ok", articles := [goodArticle], totalResults := 0 }).articles.length = 1 ∧
    (searchResponseDataV
      { status := "ok", articles := [goodArticle], totalResults := 0 }).totalResults = 0 ∧
    (validArticlesV [goodArticle, noUrlArticle]).length = 1 ∧
    (searchResponseDataV
      { status := "ok", articles := [goodArticle, noUrlArticle],
        totalResults := 1 }).totalResults = 1 := by
  decide

/-- C8 (amended): on an upstream timeout neither variant writes a cache entry;
the serverless variant replies 408 with the machine-readable retry hint
"30 seconds", but the always-on variant has no timeout branch in its catch
block and replies 500 with no retry hint (alwayson_timeout_500_cex). -/
theorem timeout_handling_by_variant (c : Cache UpstreamBody)
    (cA : AList UpstreamBody) (key : String) (now : Nat) :
    headlinesCompleteV c key now (Except.error FetchError.timeout) =
      (408, some "30 seconds", c) ∧
    headlinesCompleteA cA key (Except.error FetchError.timeout) =
      (500, none, cA) := by
  constructor <;> rfl

/-- Counterexample to C8 as stated: the always-on headlines handler answers a
timeout with 500 and no retry hint, not 408. -/
theorem alwayson_timeout_500_cex :
    (headlinesCompleteA [] "k" (Except.error FetchError.timeout)).1 = 500 ∧
    (headlinesCompleteA [] "k" (Except.error FetchError.timeout)).1 ≠ 408 ∧
    (headlinesCompleteA [] "k" (Except.error FetchError.timeout)).2.1 = none ∧
    (headlinesCompleteA [] "k" (Except.error FetchError.timeout)).2.2 = [] := by
  decide

/-- C9 (confirmed): with NODE_ENV equal to development, the configured skip
predicate of newsRateLimit holds for every request, so the governor admits
every request of every client identity without consulting or updating any
window state; the limiter is installed once via router.use ahead of all news
routes, so this covers every news route. -/
theorem governor_skips_in_development (now : Nat)
    (store : String → RateWindow) (cid : String) :
    admitClient newsRateLimit (some "development") now store cid =
      (true, store) := by
  simp [admitClient, newsRateLimit]

/-- C10 (confirmed): whenever page or pageSize is a string on which parseInt
yields NaN, the handler does not reject with 400 (only the category is
validated) and proceeds with the cache key and the upstream page and pageSize
parameters built from the clamped values; the Math.min and Math.max clamps
propagate NaN for each affected parameter, so at least one upstream parameter
is NaN and at least one cache-key slot is the text "NaN". -/
theorem nan_propagation_headlines (category country page pageSize : String)
    (hcat : validCategories.contains category = true)
    (hnan : parseIntJS page = JSNum.nan ∨ parseIntJS pageSize = JSNum.nan) :
    headlinesPrepareV category country page pageSize =
      HeadlinesStep.proceed
        ("headlines_" ++ category ++ "_" ++ country ++ "_" ++
          jsNumToString (limitedPageV page) ++ "_" ++
          jsNumToString (limitedPageSizeV pageSize))
        (limitedPageV page) (limitedPageSizeV pageSize) ∧
    (parseIntJS page = JSNum.nan → limitedPageV page = JSNum.nan) ∧
    (parseIntJS pageSize = JSNum.nan → limitedPageSizeV pageSize = JSNum.nan) ∧
    (limitedPageV page = JSNum.nan ∨ limitedPageSizeV pageSize = JSNum.nan) ∧
    (jsNumToString (limitedPageV page) = "NaN" ∨
      jsNumToString (limitedPageSizeV pageSize) = "NaN") := by
  have hmem : category ∈ validCategories := by simpa using hcat
  have hpage : parseIntJS page = JSNum.nan → limitedPageV page = JSNum.nan := by
    intro h
    simp [limitedPageV, h, jsMin, jsMax]
  have hpageSize : parseIntJS pageSize = JSNum.nan →
      limitedPageSizeV pageSize = JSNum.nan := by
    intro h
    simp [limitedPageSizeV, h, jsMin]
  have hone : limitedPageV page = JSNum.nan ∨
      limitedPageSizeV pageSize = JSNum.nan := by
    rcases hnan with h | h
    · exact Or.inl (hpage h)
    · exact Or.inr (hpageSize h)
  refine ⟨?_, hpage, hpageSize, hone, ?_⟩
  · simp [headlinesPrepareV, hmem, headlinesCacheKeyV]
  · rcases hone with h | h
    · exact Or.inl (by simp [h, jsNumToString])
    · exact Or.inr (by simp [h, jsNumToString])

/-- Witness for C10, at the mixed case page "abc", pageSize "20": the request
proceeds (no 400), the key reads NaN in the page slot only, and the upstream
parameters are NaN and 20. -/
theorem nan_propagation_headlines_witness :
    headlinesPrepareV "general" "us" "abc" "20" =
      HeadlinesStep.proceed "headlines_general_us_NaN_20"
        JSNum.nan (JSNum.int 20) := by
  have h := nan_propagation_headlines "general" "us" "abc" "20"
    (by decide) (Or.inl (by decide))
  exact h.1.trans (by decide)

end NewsProxy
